import Mathlib

/-!
Verification of the message-processing and connection-resilience engine of a
WhatsApp chatbot (TypeScript).  The development shallowly embeds the relevant
source functions: the webhook signing/verification service (`WebhookService`),
the command registry and dispatcher (`CommandManager`), the session
reconnection scheduler and inbound-message handler (`WhatsAppClient`), and the
per-conversation rate limiter (`RateLimiterService`).  JavaScript numbers that
hold millisecond timestamps, cooldowns and delays are modelled as rationals;
strings are hashed through their UTF-8 bytes, with bytes as naturals below 256.
-/

set_option maxRecDepth 100000

namespace Chatbot

/-! SHA-256, embedded bit-for-bit (FIPS 180-4).  The TypeScript code obtains it
from `crypto.createHash('sha256')`; the claims about signatures are decided by
this concrete algorithm, so it is spelled out rather than axiomatised. -/

/-- Rotation of a 32-bit word right by `n`. -/
def rotr32 (n x : Nat) : Nat := ((x >>> n) ||| (x <<< (32 - n))) % 4294967296

/-- Choice function of the SHA-256 round. -/
def ch32 (x y z : Nat) : Nat := (x &&& y) ^^^ ((x ^^^ 4294967295) &&& z)

/-- Majority function of the SHA-256 round. -/
def maj32 (x y z : Nat) : Nat := (x &&& y) ^^^ (x &&& z) ^^^ (y &&& z)

/-- Big sigma-0 of the SHA-256 round. -/
def bigSigma0 (x : Nat) : Nat := rotr32 2 x ^^^ rotr32 13 x ^^^ rotr32 22 x

/-- Big sigma-1 of the SHA-256 round. -/
def bigSigma1 (x : Nat) : Nat := rotr32 6 x ^^^ rotr32 11 x ^^^ rotr32 25 x

/-- Small sigma-0 of the message schedule. -/
def smallSigma0 (x : Nat) : Nat := rotr32 7 x ^^^ rotr32 18 x ^^^ (x >>> 3)

/-- Small sigma-1 of the message schedule. -/
def smallSigma1 (x : Nat) : Nat := rotr32 17 x ^^^ rotr32 19 x ^^^ (x >>> 10)

/-- Round constants of SHA-256 (FIPS 180-4 section 4.2.2, the first 32 bits of
the fractional parts of the cube roots of the first 64 primes), written in
decimal. -/
def sha256K : List Nat :=
  [1116352408, 1899447441, 3049323471, 3921009573, 961987163,
   1508970993, 2453635748, 2870763221, 3624381080, 310598401,
   607225278, 1426881987, 1925078388, 2162078206, 2614888103,
   3248222580, 3835390401, 4022224774, 264347078, 604807628,
   770255983, 1249150122, 1555081692, 1996064986, 2554220882,
   2821834349, 2952996808, 3210313671, 3336571891, 3584528711,
   113926993, 338241895, 666307205, 773529912, 1294757372,
   1396182291, 1695183700, 1986661051, 2177026350, 2456956037,
   2730485921, 2820302411, 3259730800, 3345764771, 3516065817,
   3600352804, 4094571909, 275423344, 430227734, 506948616,
   659060556, 883997877, 958139571, 1322822218, 1537002063,
   1747873779, 1955562222, 2024104815, 2227730452, 2361852424,
   2428436474, 2756734187, 3204031479, 3329325298]

/-- Working state of one SHA-256 compression. -/
structure Sha256State where
  a : Nat
  b : Nat
  c : Nat
  d : Nat
  e : Nat
  f : Nat
  g : Nat
  h : Nat

/-- Initial hash state of SHA-256 (FIPS 180-4 section 5.3.3), in decimal. -/
def sha256Init : Sha256State :=
  ⟨1779033703, 3144134277, 1013904242, 2773480762,
   1359893119, 2600822924, 528734635, 1541459225⟩

/-- Big-endian 32-bit words from a byte list (extra tail bytes dropped). -/
def bytesToWords : List Nat → List Nat
  | b0 :: b1 :: b2 :: b3 :: rest =>
      (((b0 * 256 + b1) * 256 + b2) * 256 + b3) :: bytesToWords rest
  | _ => []

/-- Append the next word of the SHA-256 message schedule. -/
def extendStep (w : List Nat) : List Nat :=
  let i := w.length
  let x := (w.getD (i - 16) 0 + smallSigma0 (w.getD (i - 15) 0) +
            w.getD (i - 7) 0 + smallSigma1 (w.getD (i - 2) 0)) % 4294967296
  w ++ [x]

/-- Iterate the schedule extension `n` times. -/
def extendAll : Nat → List Nat → List Nat
  | 0, w => w
  | n + 1, w => extendAll n (extendStep w)

/-- One SHA-256 round. -/
def roundStep (st : Sha256State) (k w : Nat) : Sha256State :=
  let t1 := (st.h + bigSigma1 st.e + ch32 st.e st.f st.g + k + w) % 4294967296
  let t2 := (bigSigma0 st.a + maj32 st.a st.b st.c) % 4294967296
  ⟨(t1 + t2) % 4294967296, st.a, st.b, st.c, (st.d + t1) % 4294967296,
   st.e, st.f, st.g⟩

/-- Run the 64 rounds over the zipped constants and schedule. -/
def roundsAll (st : Sha256State) : List (Nat × Nat) → Sha256State
  | [] => st
  | (k, w) :: rest => roundsAll (roundStep st k w) rest

/-- Compress one 64-byte block into the state. -/
def sha256Compress (st : Sha256State) (block : List Nat) : Sha256State :=
  let w := extendAll 48 (bytesToWords block)
  let r := roundsAll st (sha256K.zip w)
  ⟨(st.a + r.a) % 4294967296, (st.b + r.b) % 4294967296,
   (st.c + r.c) % 4294967296, (st.d + r.d) % 4294967296,
   (st.e + r.e) % 4294967296, (st.f + r.f) % 4294967296,
   (st.g + r.g) % 4294967296, (st.h + r.h) % 4294967296⟩

/-- Big-endian bytes of a 64-bit length field. -/
def be64 (n : Nat) : List Nat :=
  [n / 72057594037927936 % 256, n / 281474976710656 % 256,
   n / 1099511627776 % 256, n / 4294967296 % 256,
   n / 16777216 % 256, n / 65536 % 256, n / 256 % 256, n % 256]

/-- Big-endian bytes of a 32-bit word. -/
def be32 (n : Nat) : List Nat :=
  [n / 16777216 % 256, n / 65536 % 256, n / 256 % 256, n % 256]

/-- Pad a message to a multiple of 64 bytes: 0x80, zeros, 64-bit bit length. -/
def padMessage (msg : List Nat) : List Nat :=
  msg ++ 128 :: List.replicate ((64 - (msg.length + 9) % 64) % 64) 0 ++
    be64 (msg.length * 8)

/-- Split into 64-byte blocks, with an explicit fuel for structural recursion. -/
def toBlocksAux : Nat → List Nat → List (List Nat)
  | 0, _ => []
  | _, [] => []
  | fuel + 1, l => l.take 64 :: toBlocksAux fuel (l.drop 64)

/-- Split a byte list into 64-byte blocks. -/
def toBlocks (l : List Nat) : List (List Nat) := toBlocksAux (l.length + 1) l

/-- Serialization of a final hash state as 32 big-endian bytes. -/
def sha256Digest (st : Sha256State) : List Nat :=
  be32 st.a ++ be32 st.b ++ be32 st.c ++ be32 st.d ++
  be32 st.e ++ be32 st.f ++ be32 st.g ++ be32 st.h

/-- SHA-256 digest (32 bytes) of a byte list. -/
def sha256 (msg : List Nat) : List Nat :=
  sha256Digest ((toBlocks (padMessage msg)).foldl sha256Compress sha256Init)

/-- UTF-8 bytes of one character. -/
def utf8Char (c : Char) : List Nat :=
  let n := c.toNat
  if n < 128 then [n]
  else if n < 2048 then [192 + n / 64, 128 + n % 64]
  else if n < 65536 then [224 + n / 4096, 128 + n / 64 % 64, 128 + n % 64]
  else [240 + n / 262144, 128 + n / 4096 % 64, 128 + n / 64 % 64, 128 + n % 64]

/-- UTF-8 bytes of a string, the form `hash.update` consumes. -/
def strBytes (s : String) : List Nat := s.data.flatMap utf8Char

/-- Lowercasing as `toLowerCase` behaves on the ASCII names the codebase
compares, applied per character (kept structurally recursive so concrete
registrations evaluate). -/
def jsToLower (s : String) : String := ⟨s.data.map Char.toLower⟩

/-- Prefix test as `startsWith` behaves, kept structurally recursive so
concrete dispatches evaluate. -/
def strStartsWith (s p : String) : Bool := p.data.isPrefixOf s.data

/-- Character-level `slice(n)` / `substring(n)` of a JavaScript string. -/
def strDrop (s : String) (n : Nat) : String := ⟨s.data.drop n⟩

/-- Splitting on every occurrence of a separator character, as JavaScript
`split(sep)` behaves (`"".split(sep)` is `[""]`). -/
def splitCharAux (sep : Char) : List Char → List Char → List String
  | [], acc => [⟨acc.reverse⟩]
  | c :: rest, acc =>
      if c = sep then ⟨acc.reverse⟩ :: splitCharAux sep rest []
      else splitCharAux sep rest (c :: acc)

/-- JavaScript `s.split(sep)` for a one-character separator. -/
def jsSplit (sep : Char) (s : String) : List String :=
  splitCharAux sep s.data []

/-! Hex rendering and parsing.  `digest('hex')` renders lowercase hex;
`Buffer.from(s, 'hex')` decodes pairs of hex characters and truncates at the
first pair containing a character that is not a hex digit (Node semantics). -/

/-- Lowercase hex character code of a nibble. -/
def hexDigit (n : Nat) : Nat := if n < 10 then 48 + n else 87 + n

/-- Lowercase hex character codes of a byte list (`digest('hex')`). -/
def hexEncode : List Nat → List Nat
  | [] => []
  | b :: rest => hexDigit (b / 16) :: hexDigit (b % 16) :: hexEncode rest

/-- Value of a hex character code, accepting both cases; `none` when the
character is not a hex digit. -/
def hexVal (c : Nat) : Option Nat :=
  if 48 ≤ c ∧ c ≤ 57 then some (c - 48)
  else if 97 ≤ c ∧ c ≤ 102 then some (c - 87)
  else if 65 ≤ c ∧ c ≤ 70 then some (c - 55)
  else none

/-- Byte list decoded from hex character codes, Node `Buffer.from(s, 'hex')`
style: decode pairwise, stop at the first invalid or incomplete pair. -/
def hexDecode : List Nat → List Nat
  | c1 :: c2 :: rest =>
      match hexVal c1, hexVal c2 with
      | some hi, some lo => (16 * hi + lo) :: hexDecode rest
      | _, _ => []
  | _ => []

/-- String from a list of character codes. -/
def natsToString (l : List Nat) : String := ⟨l.map Char.ofNat⟩

/-- Character codes of a string, the units `Buffer.from(s, 'hex')` reads. -/
def charCodes (s : String) : List Nat := s.data.map Char.toNat

/-! WebhookService (`src/unnamed/part_003`).  Only the fields the embedded
methods read are kept from `BotConfig`. -/

/-- Configuration slice of `BotConfig` used by the webhook service. -/
structure BotConfig where
  webhookSecret : String
  webhookTimeout : Rat

/-- Embedding of `WebhookService.generateSignature` (lines 18-22): the hex
digest of SHA-256 over the payload concatenated with the secret.  Note the
source builds `createHash('sha256')`, not `createHmac`. -/
def generateSignature (cfg : BotConfig) (payload : String) : String :=
  natsToString (hexEncode (sha256 (strBytes (payload ++ cfg.webhookSecret))))

/-- Embedding of `WebhookService.createHmacSignature` (lines 204-208), whose
body is identical to `generateSignature`. -/
def createHmacSignature (cfg : BotConfig) (body : String) : String :=
  natsToString (hexEncode (sha256 (strBytes (body ++ cfg.webhookSecret))))

/-- Embedding of `WebhookService.verifySignature` (lines 27-39): decode both
hex strings, short-circuit to `false` on a byte-length mismatch, otherwise
compare with `timingSafeEqual` (which, on equal lengths, is equality). -/
def verifySignature (cfg : BotConfig) (payload signature : String) : Bool :=
  let expectedSignature := generateSignature cfg payload
  let sigBuf := hexDecode (charCodes signature)
  let expectedBuf := hexDecode (charCodes expectedSignature)
  if sigBuf.length ≠ expectedBuf.length then false
  else sigBuf == expectedBuf

/-- Embedding of `WebhookService.verifyHmacSignature` (lines 213-224), whose
body is identical to `verifySignature` with `createHmacSignature` inlined. -/
def verifyHmacSignature (cfg : BotConfig) (body signature : String) : Bool :=
  let expectedSignature := createHmacSignature cfg body
  let sigBuf := hexDecode (charCodes signature)
  let expectedBuf := hexDecode (charCodes expectedSignature)
  if sigBuf.length ≠ expectedBuf.length then false
  else sigBuf == expectedBuf

/-- Modelled from the spec: the standard HMAC-SHA256 construction (RFC 2104)
that the spec names for `sign` — `HMAC-SHA256(secret, payload)`.  The source
never builds this; the definition exists so the signing routine can be compared
against what the spec says it computes. -/
def hmacSha256 (key msg : List Nat) : List Nat :=
  let k0 := if 64 < key.length then sha256 key else key
  let kp := k0 ++ List.replicate (64 - k0.length) 0
  sha256 (kp.map (fun b => b ^^^ 92) ++
    sha256 (kp.map (fun b => b ^^^ 54) ++ msg))

/-! Webhook header validation (`src/unnamed/part_003`, lines 258-291) and the
URL-parameter freshness check (lines 140-179).  Header values are strings; a
missing header surfaces as the empty string, which is exactly what the
JavaScript falsiness test `!signature` rejects. -/

/-- Embedding of JavaScript `parseInt(s, 10)`: skip leading whitespace, read an
optional sign and then the longest digit prefix; `none` models `NaN`. -/
def jsParseInt (s : String) : Option Int :=
  let cs := s.data.dropWhile fun c => c.isWhitespace
  match cs with
  | '-' :: rest => (leadDigits rest).map fun n => -(n : Int)
  | '+' :: rest => (leadDigits rest).map fun n => (n : Int)
  | rest => (leadDigits rest).map fun n => (n : Int)
where
  /-- Value of the longest digit prefix; `none` when there is no digit. -/
  leadDigits (cs : List Char) : Option Nat :=
    match cs.takeWhile (fun c => c.isDigit) with
    | [] => none
    | ds => some (ds.foldl (fun acc c => acc * 10 + (c.toNat - 48)) 0)

/-- Security headers read by `validateSecurityHeaders`; a missing header is the
empty string (both are falsy in the source's `!signature` tests). -/
structure SecurityHeaders where
  signature : String
  timestamp : String
  version : String

/-- Embedding of `WebhookService.validateSecurityHeaders` (lines 258-291):
reject missing headers and wrong versions, reject timestamps with
`now - timestamp > webhookTimeout` (the `NaN` branch of `parseInt` makes that
comparison false, so it falls through), then verify the signature over the
timestamp string. -/
def validateSecurityHeaders (cfg : BotConfig) (now : Rat)
    (h : SecurityHeaders) : Bool :=
  if h.signature = "" ∨ h.timestamp = "" ∨ h.version = "" then false
  else if h.version ≠ "1.0" then false
  else
    let fresh :=
      match jsParseInt h.timestamp with
      | none => true
      | some ts => decide (now - (ts : Rat) ≤ cfg.webhookTimeout)
    if fresh then verifySignature cfg h.timestamp h.signature else false

/-- Result record of `parseWebhookUrl`; the timestamp is `none` when
`parseInt` produced `NaN`. -/
structure ParsedWebhookUrl where
  event : String
  signature : String
  timestamp : Option Int
  isValid : Bool

/-- Embedding of the parameter-validation stage of
`WebhookService.parseWebhookUrl` (lines 140-169), after the `URL` object has
yielded the three query parameters (`none` models an absent parameter): missing
parameters invalidate, and a timestamp with `now - timestamp > webhookTimeout`
invalidates; anything else is valid. -/
def parseWebhookUrlParams (cfg : BotConfig) (now : Rat)
    (event signature timestamp : Option String) : ParsedWebhookUrl :=
  match event, signature, timestamp with
  | some ev, some sig, some ts =>
      if ev = "" ∨ sig = "" ∨ ts = "" then ⟨"", "", some 0, false⟩
      else
        let tsNum := jsParseInt ts
        let stale :=
          match tsNum with
          | none => false
          | some n => decide (cfg.webhookTimeout < now - (n : Rat))
        if stale then ⟨ev, sig, tsNum, false⟩ else ⟨ev, sig, tsNum, true⟩
  | _, _, _ => ⟨"", "", some 0, false⟩

/-! Association-list maps standing in for JavaScript `Map`: `mapSet` replaces
any previous binding, `mapGet` is `Map.get`. -/

/-- Lookup in an association list (`Map.get`). -/
def mapGet {α : Type} (m : List (String × α)) (k : String) : Option α :=
  match m with
  | [] => none
  | (k', v) :: rest => if k = k' then some v else mapGet rest k

/-- Insert or replace a binding (`Map.set`). -/
def mapSet {α : Type} (m : List (String × α)) (k : String) (v : α) :
    List (String × α) :=
  match m with
  | [] => [(k, v)]
  | (k', v') :: rest =>
      if k = k' then (k, v) :: rest else (k', v') :: mapSet rest k v

/-- Remove a binding (`Map.delete`). -/
def mapDel {α : Type} (m : List (String × α)) (k : String) :
    List (String × α) :=
  match m with
  | [] => []
  | (k', v') :: rest => if k = k' then rest else (k', v') :: mapDel rest k

/-! CommandManager (`src/unnamed/part_001`).  The handler is abstracted to its
observable outcome: `none` models a missing `execute` function (the JavaScript
falsiness test `!command.execute`), `some true` a handler that resolves,
`some false` a handler that throws. -/

/-- Command record; `cooldown` is a JavaScript number in milliseconds. -/
structure Command where
  name : String
  aliases : List String
  cooldown : Rat
  category : String
  execute : Option Bool

/-- Partial command record passed to `validateCommand` (`Partial<Command>`). -/
structure PartialCommand where
  name : Option String
  cooldown : Option Rat
  execute : Option Bool

/-- Registry state of `CommandManager`: names, aliases and per-command
per-chat cooldown stamps, all keyed by lowercased strings as in the source. -/
structure CommandManager where
  commands : List (String × Command)
  commandAliases : List (String × String)
  commandCooldowns : List (String × List (String × Rat))

/-- Empty manager (`new CommandManager()`). -/
def CommandManager.empty : CommandManager := ⟨[], [], []⟩

/-- Embedding of `CommandManager.registerCommand` (lines 9-24): throw when the
name is falsy or the handler missing, else store the lowercased name and remap
every lowercased alias to it.  No collision or cooldown check is performed. -/
def registerCommand (m : CommandManager) (c : Command) :
    Except String CommandManager :=
  if c.name = "" ∨ c.execute = none then
    Except.error "Command must have name and execute function"
  else
    Except.ok
      { m with
        commands := mapSet m.commands (jsToLower c.name) c
        commandAliases :=
          c.aliases.foldl
            (fun am a => mapSet am (jsToLower a) (jsToLower c.name))
            m.commandAliases }

/-- Embedding of `CommandManager.validateCommand` (lines 219-243).  The checks
on lines 234-240 (`aliases` must be an array, `category` a string) cannot fail
in a typed model and are omitted; the remaining three are kept verbatim. -/
def validateCommand (c : PartialCommand) : List String :=
  (if c.name = none ∨ c.name = some "" ∨
      (c.name.getD "").trim.length = 0 then
    ["Command name is required"] else []) ++
  (if c.execute = none then
    ["Command execute function is required"] else []) ++
  (match c.cooldown with
   | none => []
   | some cd =>
      if cd < 0 ∨ cd.den ≠ 1 then
        ["Command cooldown must be a non-negative integer"] else [])

/-- Embedding of `CommandManager.findCommand` (lines 98-114): direct name
lookup, then alias lookup. -/
def findCommand (m : CommandManager) (commandName : String) : Option Command :=
  let name := jsToLower commandName
  match mapGet m.commands name with
  | some c => some c
  | none =>
      match mapGet m.commandAliases name with
      | some target => mapGet m.commands target
      | none => none

/-- Embedding of `CommandManager.isOnCooldown` (lines 116-136).  The source
tests `!lastUsed`, so a stamp of exactly `0` counts as absent; otherwise the
command is throttled while `now < lastUsed + cooldown`. -/
def isOnCooldown (m : CommandManager) (commandName chatId : String)
    (now : Rat) : Bool :=
  match mapGet m.commands (jsToLower commandName) with
  | none => false
  | some command =>
      if command.cooldown ≤ 0 then false
      else
        match mapGet m.commandCooldowns (jsToLower commandName) with
        | none => false
        | some cooldowns =>
            match mapGet cooldowns chatId with
            | none => false
            | some lastUsed =>
                if lastUsed = 0 then false
                else decide (now < lastUsed + command.cooldown)

/-- Embedding of `CommandManager.setCooldown` (lines 138-150): no-op for a
non-positive cooldown, else stamp `now` under (lowercased name, chat id). -/
def setCooldown (m : CommandManager) (commandName chatId : String)
    (cooldown now : Rat) : CommandManager :=
  if cooldown ≤ 0 then m
  else
    let name := jsToLower commandName
    let cooldowns := (mapGet m.commandCooldowns name).getD []
    { m with
      commandCooldowns :=
        mapSet m.commandCooldowns name (mapSet cooldowns chatId now) }

/-- Dispatch context: the message body and the chat it arrived in. -/
structure CommandContext where
  body : String
  chatId : String

/-- Outcome of `executeCommand`: the returned boolean, whether the handler was
invoked, and the manager state afterwards. -/
structure ExecResult where
  ok : Bool
  invoked : Bool
  state : CommandManager

/-- Embedding of `CommandManager.executeCommand` (lines 48-96): require the
`!` prefix, parse the first space-separated token, resolve it through
`findCommand`, skip silently while on cooldown, then run the handler; a
resolving handler stamps the cooldown and yields `true`, a throwing (or
missing) handler yields `false`. -/
def executeCommand (m : CommandManager) (now : Rat) (ctx : CommandContext) :
    ExecResult :=
  if ¬ strStartsWith ctx.body "!" then ⟨false, false, m⟩
  else
    let commandName := jsToLower ((jsSplit ' ' (strDrop ctx.body 1)).headD "")
    match findCommand m commandName with
    | none => ⟨false, false, m⟩
    | some command =>
        if isOnCooldown m command.name ctx.chatId now then ⟨false, false, m⟩
        else
          match command.execute with
          | some true =>
              ⟨true, true,
               setCooldown m command.name ctx.chatId command.cooldown now⟩
          | some false => ⟨false, true, m⟩
          | none => ⟨false, false, m⟩

/-! WhatsAppClient (`src/src/services/whatsapp-client.ts`): the reconnection
scheduler (lines 198-243), the backoff delay (lines 219-225) and the inbound
message handler (lines 111-139). -/

/-- Configuration slice used by the reconnection scheduler. -/
structure ClientConfig where
  reconnectInterval : Rat
  maxReconnectAttempts : Nat

/-- Observable state of the reconnection machinery: the attempt counter, the
`reconnecting` flag, whether a reconnect timer is pending, and how many times
each terminal event has been emitted. -/
structure ClientState where
  reconnectAttempts : Nat
  reconnecting : Bool
  timerPending : Bool
  exhaustedEmits : Nat
  reconnectFailedEmits : Nat

/-- State of the client before any disconnect. -/
def ClientState.initial : ClientState := ⟨0, false, false, 0, 0⟩

/-- Embedding of `WhatsAppClient.scheduleReconnection` (lines 198-217): a
no-op while `reconnecting` is set; emit `max_reconnect_attempts_reached` when
the attempt counter has reached the maximum; otherwise set the flag and arm
the reconnect timer. -/
def scheduleReconnection (cfg : ClientConfig) (s : ClientState) : ClientState :=
  if s.reconnecting then s
  else if cfg.maxReconnectAttempts ≤ s.reconnectAttempts then
    { s with exhaustedEmits := s.exhaustedEmits + 1 }
  else { s with reconnecting := true, timerPending := true }

/-- Embedding of a failing `WhatsAppClient.reconnect` (lines 227-243): the
timer fires, the attempt counter increments, `initialize()` throws, the
`reconnect_failed` event is emitted, and either a further attempt is scheduled
or `max_reconnect_attempts_reached` is emitted. -/
def reconnectFailure (cfg : ClientConfig) (s : ClientState) : ClientState :=
  let s1 :=
    { s with
      reconnectAttempts := s.reconnectAttempts + 1
      timerPending := false
      reconnectFailedEmits := s.reconnectFailedEmits + 1 }
  if s1.reconnectAttempts < cfg.maxReconnectAttempts then
    scheduleReconnection cfg s1
  else { s1 with exhaustedEmits := s1.exhaustedEmits + 1 }

/-- One failed-attempt step of an execution: if a reconnect timer is pending
it fires and the attempt fails, otherwise nothing happens (there is nothing
scheduled that could fail). -/
def failStep (cfg : ClientConfig) (s : ClientState) : ClientState :=
  if s.timerPending then reconnectFailure cfg s else s

/-- Run `n` failed-attempt steps. -/
def runFailures (cfg : ClientConfig) : Nat → ClientState → ClientState
  | 0, s => s
  | n + 1, s => runFailures cfg n (failStep cfg s)

/-- Embedding of the `disconnected` handler (lines 90-98): schedule a
reconnection unless the close was a clean `NAVIGATION`. -/
def onDisconnected (cfg : ClientConfig) (reason : String) (s : ClientState) :
    ClientState :=
  if reason = "NAVIGATION" then s else scheduleReconnection cfg s

/-- Embedding of the `ready` handler (lines 53-60): the attempt counter and
the `reconnecting` flag reset. -/
def onReady (s : ClientState) : ClientState :=
  { s with reconnectAttempts := 0, reconnecting := false }

/-- Embedding of `WhatsAppClient.calculateReconnectDelay` (lines 219-225),
with `Math.random()` passed in as `rand` (the source draws `rand ∈ [0, 1)`):
`maxDelay = baseDelay * 2 ^ attempts`, `jitter = rand * 0.1 * maxDelay`, and
the result is `min(maxDelay, 30000) + jitter`. -/
def calculateReconnectDelay (baseDelay : Rat) (attempts : Nat) (rand : Rat) :
    Rat :=
  let maxDelay := baseDelay * 2 ^ attempts
  let jitter := rand * (1 / 10) * maxDelay
  min maxDelay 30000 + jitter

/-- Conversation record built by `handleMessage` (lines 113-131). -/
structure Conversation where
  id : String
  chatId : String
  sender : String
  message : String
  timestamp : Rat
  isCommand : Bool
  commandName : Option String
deriving DecidableEq

/-- Inbound message as `handleMessage` reads it. -/
structure InboundMessage where
  msgId : String
  chatFrom : String
  body : String
  timestamp : Rat

/-- Side effects of `handleMessage`, in program order. -/
inductive MsgAction
  | save (c : Conversation)
  | emitMessageReceived
  | logSaveFailure
deriving DecidableEq

/-- Conversation record computed by `handleMessage` (lines 113-131): the body
is a command when it starts with `!`, and the command name is the first
space-separated token without the prefix, when that token is longer than the
bare prefix. -/
def buildConversation (msg : InboundMessage) : Conversation :=
  let isCommand := strStartsWith msg.body "!"
  let commandName :=
    if isCommand ∧ 1 < msg.body.data.length then
      let firstPart := (jsSplit ' ' msg.body).headD ""
      if 1 < firstPart.data.length then some (strDrop firstPart 1) else none
    else none
  ⟨msg.msgId, msg.chatFrom, msg.chatFrom, msg.body, msg.timestamp,
   isCommand, commandName⟩

/-- Result of `handleMessage`: the ordered side effects and whether the call
itself rejected. -/
structure HandleResult where
  trace : List MsgAction
  threw : Bool

/-- Embedding of `WhatsAppClient.handleMessage` (lines 111-139): build the
conversation record, then `try { await save; emit('message_received') } catch
{ log }` — `saveOk` says whether `database.saveConversation` resolved. -/
def handleMessage (msg : InboundMessage) (saveOk : Bool) : HandleResult :=
  let conversation := buildConversation msg
  if saveOk then ⟨[MsgAction.save conversation, MsgAction.emitMessageReceived], false⟩
  else ⟨[MsgAction.save conversation, MsgAction.logSaveFailure], false⟩

/-- Predicate for the pipeline hand-off having happened. -/
def HandleResult.emitted (r : HandleResult) : Bool :=
  r.trace.contains MsgAction.emitMessageReceived

/-! RateLimiterService (`src/src/services/rate-limiter.ts`).  The in-memory
fast path is `rate-limiter-flexible`'s `RateLimiterMemory`, an external
library: it is modelled by its documented fixed-window behaviour (a key holds
consumed points and a window expiry `now + duration`; `consume` increments and
rejects with `msBeforeNext = expiry - now` once the points are exhausted).
The constructor's `duration: windowMs / 1000` seconds is re-scaled to
milliseconds here, which is exact over the rationals. -/

/-- Rate limiter configuration (`windowMs`, `maxRequests`). -/
structure RLConfig where
  windowMs : Rat
  maxRequests : Nat

/-- In-memory record of `RateLimiterMemory` for one key. -/
structure MemRecord where
  count : Nat
  expiresAt : Rat

/-- Persisted record of the `rate_limits` table for one chat. -/
structure DbRecord where
  count : Nat
  resetTime : Rat

/-- Combined limiter state: the in-memory fast path and the database copy. -/
structure RLState where
  mem : List (String × MemRecord)
  db : List (String × DbRecord)

/-- Empty limiter state. -/
def RLState.empty : RLState := ⟨[], []⟩

/-- Outcome of `RateLimiterMemory.consume`: either the resolved result or the
rejection carrying `msBeforeNext`. -/
structure MemOutcome where
  allowed : Bool
  remainingPoints : Nat
  msBeforeNext : Rat
  mem : List (String × MemRecord)

/-- Fixed-window `consume` of `RateLimiterMemory`: a fresh or expired key is
reinitialised to one consumed point expiring a window later; an active key is
incremented and rejected once the consumed points exceed the capacity, with
`msBeforeNext` the time to the window expiry. -/
def memConsume (cfg : RLConfig) (now : Rat) (mem : List (String × MemRecord))
    (key : String) : MemOutcome :=
  match mapGet mem key with
  | some r =>
      if now < r.expiresAt then
        let c := r.count + 1
        if c ≤ cfg.maxRequests then
          ⟨true, cfg.maxRequests - c, r.expiresAt - now,
           mapSet mem key ⟨c, r.expiresAt⟩⟩
        else
          ⟨false, 0, r.expiresAt - now, mapSet mem key ⟨c, r.expiresAt⟩⟩
      else
        ⟨1 ≤ cfg.maxRequests, cfg.maxRequests - 1, cfg.windowMs,
         mapSet mem key ⟨1, now + cfg.windowMs⟩⟩
  | none =>
      ⟨1 ≤ cfg.maxRequests, cfg.maxRequests - 1, cfg.windowMs,
       mapSet mem key ⟨1, now + cfg.windowMs⟩⟩

/-- Result record of `checkRateLimit`. -/
structure RLResult where
  allowed : Bool
  remainingPoints : Nat
  msBeforeNext : Rat

/-- Embedding of `RateLimiterService.checkRateLimit` (lines 33-92): consume
from the in-memory limiter (a rejection is caught and returned as
`allowed: false`), then reconcile the database copy — reset it when expired,
refuse when it already holds `maxRequests`, increment it otherwise. -/
def checkRateLimit (cfg : RLConfig) (now : Rat) (st : RLState)
    (chatId : String) : RLResult × RLState :=
  let out := memConsume cfg now st.mem chatId
  if out.allowed then
    match mapGet st.db chatId with
    | some dbRecord =>
        if dbRecord.resetTime < now then
          (⟨true, out.remainingPoints, out.msBeforeNext⟩,
           ⟨out.mem, mapSet st.db chatId ⟨1, now + cfg.windowMs⟩⟩)
        else if cfg.maxRequests ≤ dbRecord.count then
          (⟨false, 0, dbRecord.resetTime - now⟩, ⟨out.mem, st.db⟩)
        else
          (⟨true, out.remainingPoints, out.msBeforeNext⟩,
           ⟨out.mem,
            mapSet st.db chatId
              ⟨dbRecord.count + 1, dbRecord.resetTime⟩⟩)
    | none =>
        (⟨true, out.remainingPoints, out.msBeforeNext⟩,
         ⟨out.mem, mapSet st.db chatId ⟨1, now + cfg.windowMs⟩⟩)
  else (⟨false, 0, out.msBeforeNext⟩, ⟨out.mem, st.db⟩)

/-- State after the calls at times `t 0, …, t (n-1)` for one chat. -/
def rlStateAfter (cfg : RLConfig) (chatId : String) (t : Nat → Rat)
    (st : RLState) : Nat → RLState
  | 0 => st
  | n + 1 => (checkRateLimit cfg (t n) (rlStateAfter cfg chatId t st n) chatId).2

/-- Result of the call at time `t n`, the `(n+1)`-th call. -/
def rlResultAt (cfg : RLConfig) (chatId : String) (t : Nat → Rat)
    (st : RLState) (n : Nat) : RLResult :=
  (checkRateLimit cfg (t n) (rlStateAfter cfg chatId t st n) chatId).1

/-- Invariant of an active window: both layers hold `k` consumed requests for
the chat and the window ends at `r`. -/
def rlInv (chatId : String) (k : Nat) (r : Rat) (st : RLState) : Prop :=
  mapGet st.mem chatId = some ⟨k, r⟩ ∧ mapGet st.db chatId = some ⟨k, r⟩

/-- The chat's window, if any, has elapsed by time `u` in both layers: the
in-memory record (expired when `u` is not before `expiresAt`) and the database
record (expired when `resetTime < u`). -/
def rlFresh (chatId : String) (u : Rat) (st : RLState) : Prop :=
  (∀ r, mapGet st.mem chatId = some r → r.expiresAt ≤ u) ∧
  (∀ r, mapGet st.db chatId = some r → r.resetTime < u)

/-! Concrete instances used by the closed evaluations below. -/

/-- Configuration used by the concrete webhook evaluations: secret `"key"`,
30-second timestamp tolerance. -/
def cfgKey : BotConfig := ⟨"key", 30000⟩

/-- Client configuration with the spec's shape: base delay 5000 ms and three
reconnection attempts allowed. -/
def cfgRetry : ClientConfig := ⟨5000, 3⟩

/-- Concrete inbound message for the persistence evaluations. -/
def msgPing : InboundMessage := ⟨"m1", "123@c.us", "!ping", 1700000000⟩

/-- Concrete command with an alias and a three-second cooldown. -/
def cmdPing : Command := ⟨"ping", ["p"], 3000, "general", some true⟩

/-- Command whose name collides case-insensitively with `cmdPing` and whose
cooldown is negative. -/
def cmdPingClash : Command := ⟨"Ping", [], -5, "general", some true⟩

/-- Manager state holding `cmdPing` under its name and its alias. -/
def mgrPing : CommandManager := ⟨[("ping", cmdPing)], [("p", "ping")], []⟩

/-- Dispatch context sending `"!p hello"` in chat `"chat1"`. -/
def ctxPing : CommandContext := ⟨"!p hello", "chat1"⟩

/-! Theorems.  The development first settles the byte-level facts about the
hash and hex layers, then the claims about each component. -/

/-- Sanity check of the embedding against the FIPS 180-4 test vector for
`"abc"`. -/
example : sha256 (strBytes "abc") =
    [0xba, 0x78, 0x16, 0xbf, 0x8f, 0x01, 0xcf, 0xea,
     0x41, 0x41, 0x40, 0xde, 0x5d, 0xae, 0x22, 0x23,
     0xb0, 0x03, 0x61, 0xa3, 0x96, 0x17, 0x7a, 0x9c,
     0xb4, 0x10, 0xff, 0x61, 0xf2, 0x00, 0x15, 0xad] := by decide

/-- Sanity check of the HMAC construction against RFC 4231 test case 2. -/
example : hmacSha256 (strBytes "Jefe") (strBytes "what do ya want for nothing?") =
    [0x5b, 0xdc, 0xc1, 0x46, 0xbf, 0x60, 0x75, 0x4e,
     0x6a, 0x04, 0x24, 0x26, 0x08, 0x95, 0x75, 0xc7,
     0x5a, 0x00, 0x3f, 0x08, 0x9d, 0x27, 0x39, 0x83,
     0x9d, 0xec, 0x58, 0xb9, 0x64, 0xec, 0x38, 0x43] := by decide

/-- Four bytes of `be32`, each below 256. -/
theorem be32_mem_lt (n : Nat) : ∀ b ∈ be32 n, b < 256 := by
  simp only [be32, List.mem_cons, List.not_mem_nil, or_false]
  omega

/-- Digest serialization is 32 bytes long. -/
theorem sha256Digest_length (st : Sha256State) :
    (sha256Digest st).length = 32 := by
  simp [sha256Digest, be32]

/-- SHA-256 digests are 32 bytes long. -/
theorem sha256_length (msg : List Nat) : (sha256 msg).length = 32 :=
  sha256Digest_length _

/-- Digest bytes are below 256. -/
theorem sha256_mem_lt (msg : List Nat) : ∀ b ∈ sha256 msg, b < 256 := by
  intro b hb
  unfold sha256 sha256Digest at hb
  simp only [List.mem_append] at hb
  rcases hb with ((((((h | h) | h) | h) | h) | h) | h) | h <;>
    exact be32_mem_lt _ _ h

/-- Hex digits of a nibble parse back to the nibble. -/
theorem hexVal_hexDigit (n : Nat) (h : n < 16) :
    hexVal (hexDigit n) = some n := by
  unfold hexVal hexDigit
  split_ifs <;> first | omega | (simp only [Option.some.injEq]; omega)

/-- Hex character codes of a genuine byte list are ASCII. -/
theorem hexEncode_mem_lt (l : List Nat) (hl : ∀ b ∈ l, b < 256) :
    ∀ c ∈ hexEncode l, c < 128 := by
  induction l with
  | nil => intro c hc; simp [hexEncode] at hc
  | cons b t ih =>
      intro c hc
      have hb : b < 256 := hl b (List.mem_cons_self ..)
      simp only [hexEncode, List.mem_cons] at hc
      rcases hc with rfl | rfl | hc
      · unfold hexDigit; split_ifs <;> omega
      · unfold hexDigit; split_ifs <;> omega
      · exact ih (fun x hx => hl x (List.mem_cons_of_mem _ hx)) c hc

/-- Hex rendering doubles the length. -/
theorem hexEncode_length (l : List Nat) :
    (hexEncode l).length = 2 * l.length := by
  induction l with
  | nil => rfl
  | cons b t ih =>
      simp only [hexEncode, List.length_cons, ih]
      omega

/-- Hex decoding undoes hex rendering on genuine byte lists. -/
theorem hexDecode_hexEncode (l : List Nat) (h : ∀ b ∈ l, b < 256) :
    hexDecode (hexEncode l) = l := by
  induction l with
  | nil => rfl
  | cons b t ih =>
      have hb : b < 256 := h b (List.mem_cons_self ..)
      have h1 : b / 16 < 16 := by omega
      have h2 : b % 16 < 16 := by omega
      simp only [hexEncode, hexDecode, hexVal_hexDigit _ h1,
        hexVal_hexDigit _ h2]
      rw [ih fun x hx => h x (List.mem_cons_of_mem _ hx)]
      congr 1
      exact Nat.div_add_mod b 16

/-- Conversion through `Char` is lossless below the surrogate range. -/
theorem char_toNat_ofNat (n : Nat) (h : n < 55296) :
    (Char.ofNat n).toNat = n := by
  have hv : n.isValidChar := Or.inl h
  rw [Char.ofNat, dif_pos hv]
  rfl

/-- Character codes of a rendered ASCII code list are the list itself. -/
theorem charCodes_natsToString (l : List Nat) (h : ∀ x ∈ l, x < 128) :
    charCodes (natsToString l) = l := by
  unfold charCodes natsToString
  rw [List.map_map]
  induction l with
  | nil => rfl
  | cons x t ih =>
      have hx : x < 55296 := by
        have := h x (List.mem_cons_self ..)
        omega
      simp only [List.map_cons, Function.comp_apply, char_toNat_ofNat x hx]
      rw [ih fun y hy => h y (List.mem_cons_of_mem _ hy)]

/-- Decoded bytes of `createHmacSignature` are the digest it rendered. -/
theorem decode_createHmacSignature (cfg : BotConfig) (p : String) :
    hexDecode (charCodes (createHmacSignature cfg p)) =
      sha256 (strBytes (p ++ cfg.webhookSecret)) := by
  unfold createHmacSignature
  rw [charCodes_natsToString _ (hexEncode_mem_lt _ (sha256_mem_lt _))]
  exact hexDecode_hexEncode _ (sha256_mem_lt _)

/-- Decoded bytes of `generateSignature` are the digest it rendered. -/
theorem decode_generateSignature (cfg : BotConfig) (p : String) :
    hexDecode (charCodes (generateSignature cfg p)) =
      sha256 (strBytes (p ++ cfg.webhookSecret)) := by
  unfold generateSignature
  rw [charCodes_natsToString _ (hexEncode_mem_lt _ (sha256_mem_lt _))]
  exact hexDecode_hexEncode _ (sha256_mem_lt _)

/-- Signatures produced by the service verify: `verify(p, sign(p))` is `true`
for every payload and secret. -/
theorem verifyHmac_roundTrip (cfg : BotConfig) (p : String) :
    verifyHmacSignature cfg p (createHmacSignature cfg p) = true := by
  unfold verifyHmacSignature
  simp only [decode_createHmacSignature]
  simp

/-- Signatures produced by `generateSignature` pass `verifySignature`. -/
theorem verifySignature_roundTrip (cfg : BotConfig) (p : String) :
    verifySignature cfg p (generateSignature cfg p) = true := by
  unfold verifySignature
  simp only [decode_generateSignature]
  simp

/-- Tampered payloads are rejected unless the two hashed strings collide
under SHA-256: the disjunct exhibits the concrete collision, which is never
assumed absent. -/
theorem verifyHmac_tamper (cfg : BotConfig) (p : String) :
    verifyHmacSignature cfg p (createHmacSignature cfg (p ++ "x")) = false ∨
      sha256 (strBytes (p ++ "x" ++ cfg.webhookSecret)) =
        sha256 (strBytes (p ++ cfg.webhookSecret)) := by
  by_cases hc : sha256 (strBytes (p ++ "x" ++ cfg.webhookSecret)) =
      sha256 (strBytes (p ++ cfg.webhookSecret))
  · exact Or.inr hc
  · left
    unfold verifyHmacSignature
    simp only [decode_createHmacSignature]
    rw [if_neg]
    · exact beq_eq_false_iff_ne.mpr hc
    · simp only [ne_eq, sha256_length, not_true_eq_false, not_false_eq_true]

/-- Claim C1, code bug: the signing routine is documented and named as HMAC
but computes plain `SHA-256(payload ++ secret)`; at secret `"key"` and payload
`"abc"` its output differs from `HMAC-SHA256(secret, payload)`, although it is
64 characters of hex as claimed. -/
theorem generateSignature_is_not_hmac :
    charCodes (generateSignature cfgKey "abc") ≠
        hexEncode (hmacSha256 (strBytes cfgKey.webhookSecret)
          (strBytes "abc")) ∧
      createHmacSignature cfgKey "abc" = generateSignature cfgKey "abc" ∧
      (generateSignature cfgKey "abc").length = 64 := by
  refine ⟨by decide, rfl, ?_⟩
  decide

/-- Rendered signatures are 64 characters long. -/
theorem generateSignature_length (cfg : BotConfig) (p : String) :
    (generateSignature cfg p).length = 64 := by
  show (natsToString _).length = 64
  unfold natsToString
  show (List.map Char.ofNat _).length = 64
  rw [List.length_map, hexEncode_length, sha256_length]

/-- Rendered signatures are never the empty string. -/
theorem generateSignature_ne_empty (cfg : BotConfig) (p : String) :
    generateSignature cfg p ≠ "" := by
  intro h
  have := generateSignature_length cfg p
  rw [h] at this
  exact absurd this (by decide)

/-- Claim C9: whenever the hex decoding of the supplied signature is not 32
bytes — wrong length, odd length, or truncated at a non-hex character — the
length guard itself differs (so the `timingSafeEqual` arm is not the one
taken) and `verifyHmacSignature` returns `false`; the function is total, so no
exception escapes. -/
theorem verifyHmac_shortCircuit (cfg : BotConfig) (body sig : String)
    (h : (hexDecode (charCodes sig)).length ≠ 32) :
    (hexDecode (charCodes sig)).length ≠
        (hexDecode (charCodes (createHmacSignature cfg body))).length ∧
      verifyHmacSignature cfg body sig = false := by
  have hl : (hexDecode (charCodes (createHmacSignature cfg body))).length
      = 32 := by
    rw [decode_createHmacSignature]
    exact sha256_length _
  refine ⟨by rw [hl]; exact h, ?_⟩
  unfold verifyHmacSignature
  simp only [hl]
  rw [if_pos h]

/-- Witness for C9 at the two-character non-hex signature `"zz"`. -/
theorem verifyHmac_shortCircuit_witness :
    (hexDecode (charCodes "zz")).length ≠ 32 ∧
      ((hexDecode (charCodes "zz")).length ≠
          (hexDecode (charCodes (createHmacSignature cfgKey "payload"))).length ∧
        verifyHmacSignature cfgKey "payload" "zz" = false) :=
  ⟨by decide, verifyHmac_shortCircuit cfgKey "payload" "zz" (by decide)⟩

/-- Claim C10: the freshness test rejects only timestamps strictly older than
`webhookTimeout`; any future timestamp — arbitrarily far ahead of `now` —
passes both the header validation (given intact version and signature) and the
URL-parameter validation, so replay protection bounds only past-dated
requests. -/
theorem webhookFreshness_future (cfg : BotConfig) (now : Rat)
    (h : SecurityHeaders) (ts : Int) (ev : String)
    (hts : jsParseInt h.timestamp = some ts)
    (hfut : now ≤ (ts : Rat))
    (htm : 0 ≤ cfg.webhookTimeout)
    (hver : h.version = "1.0")
    (hsig : h.signature = generateSignature cfg h.timestamp)
    (hne : h.timestamp ≠ "")
    (hev : ev ≠ "") :
    validateSecurityHeaders cfg now h = true ∧
      (parseWebhookUrlParams cfg now (some ev) (some h.signature)
          (some h.timestamp)).isValid = true := by
  have hsne : h.signature ≠ "" := by
    rw [hsig]
    exact generateSignature_ne_empty cfg h.timestamp
  have hfresh : now - (ts : Rat) ≤ cfg.webhookTimeout :=
    le_trans (by linarith) htm
  constructor
  · unfold validateSecurityHeaders
    rw [if_neg (by simp [hsne, hne, hver]), if_neg (by simp [hver]), hts]
    simp only [decide_eq_true_eq]
    rw [if_pos hfresh, hsig]
    exact verifySignature_roundTrip cfg h.timestamp
  · simp only [parseWebhookUrlParams]
    rw [if_neg (by simp [hsne, hne, hev])]
    simp only [hts]
    rw [if_neg (by simp only [decide_eq_true_eq]; exact not_lt.mpr hfresh)]

/-- Witness for C10 at the far-future timestamp `2 ^ 65` milliseconds. -/
theorem webhookFreshness_future_witness :
    jsParseInt "36893488147419103232" = some 36893488147419103232 ∧
      (1000 : Rat) ≤ ((36893488147419103232 : Int) : Rat) ∧
      (validateSecurityHeaders cfgKey 1000
          ⟨generateSignature cfgKey "36893488147419103232",
           "36893488147419103232", "1.0"⟩ = true ∧
        (parseWebhookUrlParams cfgKey 1000 (some "evt")
            (some (generateSignature cfgKey "36893488147419103232"))
            (some "36893488147419103232")).isValid = true) :=
  ⟨by decide, by norm_num,
   webhookFreshness_future cfgKey 1000
     ⟨generateSignature cfgKey "36893488147419103232",
      "36893488147419103232", "1.0"⟩
     36893488147419103232 "evt" (by decide) (by norm_num)
     (by norm_num [cfgKey]) rfl rfl (by decide) (by decide)⟩

/-- Claim C3, counterexample: when `saveConversation` rejects, `handleMessage`
does not make the `message_received` hand-off — the emit sits inside the `try`
after the `await`, so the message does not continue into the pipeline. -/
theorem handleMessage_skips_emit_on_save_failure :
    (handleMessage msgPing false).threw = false ∧
      (handleMessage msgPing false).emitted = false := by
  constructor <;> rfl

/-- Claim C3 as amended: every inbound message is persisted before any
hand-off (the save is the first action of the trace), a persistence failure is
only logged and never propagated (`threw` is always `false`), but the
`message_received` hand-off happens exactly when the save succeeded. -/
theorem handleMessage_spec (msg : InboundMessage) (saveOk : Bool) :
    (handleMessage msg saveOk).threw = false ∧
      (handleMessage msg saveOk).trace.head? =
        some (MsgAction.save (buildConversation msg)) ∧
      (handleMessage msg saveOk).emitted = saveOk := by
  cases saveOk <;>
    simp [handleMessage, HandleResult.emitted, List.contains]

/-- Claim C8, counterexample: at base delay 5000 ms, attempt counter 4 and a
jitter draw of 0.9, the computed delay is 37200 ms, above the claimed ceiling
of 1.1 times the 30000 ms cap — the source computes the jitter from the
uncapped exponential, not from the capped value. -/
theorem backoff_exceeds_claimed_bound :
    calculateReconnectDelay 5000 4 (9 / 10) = 37200 ∧
      (11 / 10 : Rat) * 30000 < calculateReconnectDelay 5000 4 (9 / 10) := by
  constructor <;> norm_num [calculateReconnectDelay, min_def]

/-- Claim C8 as amended: the delay is `min(base * 2 ^ attempt, 30000)` plus a
jitter of at most 10 percent of the uncapped `base * 2 ^ attempt`, and only
when the exponential has not yet reached the cap is the total bounded by 1.1
times the cap. -/
theorem backoff_bound (baseDelay : Rat) (attempts : Nat) (rand : Rat)
    (hb : 0 ≤ baseDelay) (_h0 : 0 ≤ rand) (h1 : rand ≤ 1) :
    calculateReconnectDelay baseDelay attempts rand ≤
        min (baseDelay * 2 ^ attempts) 30000 +
          (1 / 10) * (baseDelay * 2 ^ attempts) ∧
      (baseDelay * 2 ^ attempts ≤ 30000 →
        calculateReconnectDelay baseDelay attempts rand ≤
          (11 / 10) * 30000) := by
  have hM : (0 : Rat) ≤ baseDelay * 2 ^ attempts :=
    mul_nonneg hb (pow_nonneg (by norm_num) _)
  have hj : rand * (1 / 10) * (baseDelay * 2 ^ attempts) ≤
      (1 / 10) * (baseDelay * 2 ^ attempts) := by
    nlinarith
  constructor
  · show min (baseDelay * 2 ^ attempts) 30000 +
        rand * (1 / 10) * (baseDelay * 2 ^ attempts) ≤ _
    linarith
  · intro hcap
    show min (baseDelay * 2 ^ attempts) 30000 +
        rand * (1 / 10) * (baseDelay * 2 ^ attempts) ≤ _
    rw [min_eq_left hcap]
    nlinarith

/-- Witness for the amended C8 at base 5000, one retry, jitter draw 0.5. -/
theorem backoff_bound_witness :
    (0 : Rat) ≤ 5000 ∧ (0 : Rat) ≤ 1 / 2 ∧ (1 / 2 : Rat) ≤ 1 ∧
      (calculateReconnectDelay 5000 1 (1 / 2) ≤
          min ((5000 : Rat) * 2 ^ 1) 30000 +
            (1 / 10) * ((5000 : Rat) * 2 ^ 1) ∧
        ((5000 : Rat) * 2 ^ 1 ≤ 30000 →
          calculateReconnectDelay 5000 1 (1 / 2) ≤ (11 / 10) * 30000)) :=
  ⟨by norm_num, by norm_num, by norm_num,
   backoff_bound 5000 1 (1 / 2) (by norm_num) (by norm_num) (by norm_num)⟩

/-- Stalled state after the first failed reconnection attempt: one attempt
made, `reconnecting` still set, no timer pending, no terminal event. -/
def stalledState : ClientState := ⟨1, true, false, 0, 1⟩

/-- Further failed-attempt steps leave the stalled state unchanged: with no
timer pending and `reconnecting` never reset, nothing is ever rescheduled. -/
theorem runFailures_stalled (n : Nat) :
    runFailures cfgRetry n stalledState = stalledState := by
  induction n with
  | zero => rfl
  | succ n ih => exact ih

/-- Claim C2, code bug: with `maxReconnectAttempts = 3`, a disconnect followed
by any number of failed reconnection attempts performs at most one attempt and
never emits `max_reconnect_attempts_reached` — the `reconnecting` flag is only
reset on `ready`, so the retry call inside `reconnect` is a no-op and the
terminal event (and the orchestrator stop hanging on it) is unreachable. -/
theorem reconnect_exhaustion_never_emitted (n : Nat) :
    (runFailures cfgRetry n
        (onDisconnected cfgRetry "CONNECTION_LOST"
          ClientState.initial)).exhaustedEmits = 0 ∧
      (runFailures cfgRetry n
          (onDisconnected cfgRetry "CONNECTION_LOST"
            ClientState.initial)).reconnectAttempts ≤ 1 := by
  cases n with
  | zero => exact ⟨by decide, by decide⟩
  | succ n =>
      have h1 : runFailures cfgRetry (n + 1)
          (onDisconnected cfgRetry "CONNECTION_LOST" ClientState.initial) =
          runFailures cfgRetry n stalledState := rfl
      rw [h1, runFailures_stalled]
      exact ⟨by decide, by decide⟩

/-- Lookup after insertion at the inserted key. -/
theorem mapGet_mapSet_self {α : Type} (m : List (String × α)) (k : String)
    (v : α) : mapGet (mapSet m k v) k = some v := by
  induction m with
  | nil => simp [mapSet, mapGet]
  | cons p t ih =>
      obtain ⟨k', v'⟩ := p
      by_cases h : k = k'
      · simp [mapSet, h, mapGet]
      · simp [mapSet, h, mapGet, ih]

/-- Lookup after insertion at a different key. -/
theorem mapGet_mapSet_ne {α : Type} (m : List (String × α)) (k k' : String)
    (v : α) (h : k' ≠ k) : mapGet (mapSet m k v) k' = mapGet m k' := by
  induction m with
  | nil => simp [mapSet, mapGet, h]
  | cons p t ih =>
      obtain ⟨k'', v''⟩ := p
      by_cases hk : k = k''
      · subst hk
        simp [mapSet, mapGet, h]
      · simp only [mapSet, if_neg hk, mapGet]
        by_cases hk' : k' = k''
        · simp [hk']
        · simp [hk', ih]

/-- Folding alias insertions preserves an existing binding to the same
value. -/
theorem mapGet_foldl_preserve (t : List String) (v : String)
    (acc : List (String × String)) (k : String)
    (h : mapGet acc k = some v) :
    mapGet (t.foldl (fun am x => mapSet am (jsToLower x) v) acc) k
      = some v := by
  induction t generalizing acc with
  | nil => exact h
  | cons x t ih =>
      apply ih
      by_cases hx : k = jsToLower x
      · rw [hx]
        exact mapGet_mapSet_self ..
      · rw [mapGet_mapSet_ne _ _ _ _ hx]
        exact h

/-- Every alias folded in ends up bound to the command name. -/
theorem mapGet_foldl_alias (aliases : List String) (v : String)
    (acc : List (String × String)) :
    ∀ a ∈ aliases,
      mapGet (aliases.foldl (fun am x => mapSet am (jsToLower x) v) acc)
        (jsToLower a) = some v := by
  induction aliases generalizing acc with
  | nil => intro a ha; exact absurd ha (List.not_mem_nil a)
  | cons x t ih =>
      intro a ha
      rcases List.mem_cons.mp ha with rfl | ha
      · exact mapGet_foldl_preserve t v _ _ (mapGet_mapSet_self ..)
      · exact ih _ a ha

/-- Claim C4, counterexample: registering `"ping"` and then a command named
`"Ping"` with cooldown `-5` succeeds — `registerCommand` performs neither the
case-insensitive collision check nor the cooldown check the claim requires
(`validateCommand` exists but is never called by `registerCommand`). -/
theorem registerCommand_collision_accepted :
    (registerCommand CommandManager.empty cmdPing >>= fun m1 =>
        registerCommand m1 cmdPingClash).isOk = true ∧
      jsToLower cmdPingClash.name = jsToLower cmdPing.name ∧
      cmdPingClash.cooldown < 0 := by
  refine ⟨by decide, by decide, by decide⟩

/-- Claim C4 as amended: `registerCommand` fails with the validation error
exactly when the name is empty or the handler is missing; on any other input
it succeeds, storing the command under its lowercased name and binding every
lowercased alias to that name — silently overwriting any case-insensitive
collision and accepting any cooldown. -/
theorem registerCommand_spec (m : CommandManager) (c : Command) :
    (∀ e, registerCommand m c = Except.error e →
        (c.name = "" ∨ c.execute = none)) ∧
      ((c.name = "" ∨ c.execute = none) →
        registerCommand m c =
          Except.error "Command must have name and execute function") ∧
      (¬ (c.name = "" ∨ c.execute = none) →
        ∃ m2, registerCommand m c = Except.ok m2 ∧
          mapGet m2.commands (jsToLower c.name) = some c ∧
          ∀ a ∈ c.aliases,
            mapGet m2.commandAliases (jsToLower a)
              = some (jsToLower c.name)) := by
  by_cases h : c.name = "" ∨ c.execute = none
  · refine ⟨fun e _ => h, fun _ => ?_, fun hn => absurd h hn⟩
    unfold registerCommand
    rw [if_pos h]
  · refine ⟨fun e he => ?_, fun hh => absurd hh h, fun _ => ?_⟩
    · unfold registerCommand at he
      rw [if_neg h] at he
      exact absurd he (by simp)
    · have hr : registerCommand m c = Except.ok
          { m with
            commands := mapSet m.commands (jsToLower c.name) c
            commandAliases :=
              c.aliases.foldl
                (fun am a => mapSet am (jsToLower a) (jsToLower c.name))
                m.commandAliases } := by
        unfold registerCommand
        rw [if_neg h]
      exact ⟨_, hr, mapGet_mapSet_self ..,
        mapGet_foldl_alias c.aliases (jsToLower c.name) m.commandAliases⟩

/-- Updating the cooldown map leaves command resolution unchanged. -/
theorem findCommand_setCooldowns (m : CommandManager)
    (cds : List (String × List (String × Rat))) (x : String) :
    findCommand (CommandManager.mk m.commands m.commandAliases cds) x
      = findCommand m x := rfl

/-- Claim C5: for a resolvable command (by name or alias) with positive
cooldown and a resolving handler, a first dispatch at `t1 > 0` succeeds and
invokes the handler; a second dispatch in the same chat at any `t2` with
`t2 < t1 + cooldown` returns `false` without invoking the handler and leaves
the state unchanged; a dispatch at any `t3 ≥ t1 + cooldown` invokes the
handler and returns `true`; and a command with cooldown `0` is never
throttled. -/
theorem cooldown_spec (m : CommandManager) (cmd : Command)
    (ctx : CommandContext) (t1 t2 t3 : Rat)
    (hb : strStartsWith ctx.body "!" = true)
    (hfind : findCommand m
      (jsToLower ((jsSplit ' ' (strDrop ctx.body 1)).headD "")) = some cmd)
    (hself : mapGet m.commands (jsToLower cmd.name) = some cmd)
    (hcd : 0 < cmd.cooldown)
    (hex : cmd.execute = some true)
    (hfresh : mapGet m.commandCooldowns (jsToLower cmd.name) = none)
    (ht1 : 0 < t1)
    (ht2 : t2 < t1 + cmd.cooldown)
    (ht3 : t1 + cmd.cooldown ≤ t3) :
    ((executeCommand m t1 ctx).ok = true ∧
        (executeCommand m t1 ctx).invoked = true) ∧
      ((executeCommand (executeCommand m t1 ctx).state t2 ctx).ok = false ∧
        (executeCommand (executeCommand m t1 ctx).state t2 ctx).invoked
          = false ∧
        (executeCommand (executeCommand m t1 ctx).state t2 ctx).state
          = (executeCommand m t1 ctx).state) ∧
      ((executeCommand (executeCommand m t1 ctx).state t3 ctx).ok = true ∧
        (executeCommand (executeCommand m t1 ctx).state t3 ctx).invoked
          = true) ∧
      (∀ (m2 : CommandManager) (nm chat : String) (t : Rat) (c0 : Command),
        mapGet m2.commands (jsToLower nm) = some c0 → c0.cooldown = 0 →
          isOnCooldown m2 nm chat t = false) := by
  have hne : ¬ cmd.cooldown ≤ 0 := not_le.mpr hcd
  have hfind2 : findCommand m
      (jsToLower ((jsSplit ' ' (strDrop ctx.body 1)).head?.getD ""))
      = some cmd := by
    simpa using hfind
  have hcool1 : isOnCooldown m cmd.name ctx.chatId t1 = false := by
    simp [isOnCooldown, hself, hfresh]
  have hm1 : setCooldown m cmd.name ctx.chatId cmd.cooldown t1 =
      CommandManager.mk m.commands m.commandAliases
        (mapSet m.commandCooldowns (jsToLower cmd.name)
          [(ctx.chatId, t1)]) := by
    simp [setCooldown, hne, hfresh, mapSet]
  have h1 : executeCommand m t1 ctx =
      ⟨true, true, setCooldown m cmd.name ctx.chatId cmd.cooldown t1⟩ := by
    simp [executeCommand, hb, hfind2, hcool1, hex]
  have hcool2 : isOnCooldown
      (CommandManager.mk m.commands m.commandAliases
        (mapSet m.commandCooldowns (jsToLower cmd.name)
          [(ctx.chatId, t1)])) cmd.name ctx.chatId t2 = true := by
    simp [isOnCooldown, hself, hne, mapGet_mapSet_self, mapGet,
      ht1.ne', ht2]
  have hcool3 : isOnCooldown
      (CommandManager.mk m.commands m.commandAliases
        (mapSet m.commandCooldowns (jsToLower cmd.name)
          [(ctx.chatId, t1)])) cmd.name ctx.chatId t3 = false := by
    simp [isOnCooldown, hself, hne, mapGet_mapSet_self, mapGet,
      ht1.ne', not_lt.mpr ht3]
  have h2 : executeCommand
      (CommandManager.mk m.commands m.commandAliases
        (mapSet m.commandCooldowns (jsToLower cmd.name)
          [(ctx.chatId, t1)])) t2 ctx =
      ⟨false, false,
        CommandManager.mk m.commands m.commandAliases
          (mapSet m.commandCooldowns (jsToLower cmd.name)
            [(ctx.chatId, t1)])⟩ := by
    simp [executeCommand, hb, findCommand_setCooldowns, hfind2, hcool2]
  have h3 : (executeCommand
      (CommandManager.mk m.commands m.commandAliases
        (mapSet m.commandCooldowns (jsToLower cmd.name)
          [(ctx.chatId, t1)])) t3 ctx).ok = true ∧
      (executeCommand
        (CommandManager.mk m.commands m.commandAliases
          (mapSet m.commandCooldowns (jsToLower cmd.name)
            [(ctx.chatId, t1)])) t3 ctx).invoked = true := by
    constructor <;>
      simp [executeCommand, hb, findCommand_setCooldowns, hfind2, hcool3, hex]
  refine ⟨⟨by rw [h1], by rw [h1]⟩, ?_, ?_, ?_⟩
  · rw [h1, hm1]
    exact ⟨by rw [h2], by rw [h2], by rw [h2]⟩
  · rw [h1, hm1]
    exact h3
  · intro m2 nm chat t c0 hc hz
    simp [isOnCooldown, hc, hz]

/-- Witness for C5: `cmdPing` dispatched through its alias `"p"` at times
1000, 2000 (throttled) and 4000 (allowed again). -/
theorem cooldown_spec_witness :
    strStartsWith ctxPing.body "!" = true ∧
      findCommand mgrPing
        (jsToLower ((jsSplit ' ' (strDrop ctxPing.body 1)).headD ""))
        = some cmdPing ∧
      (0 : Rat) < cmdPing.cooldown ∧
      (2000 : Rat) < 1000 + cmdPing.cooldown ∧
      (1000 : Rat) + cmdPing.cooldown ≤ 4000 ∧
      (((executeCommand mgrPing 1000 ctxPing).ok = true ∧
          (executeCommand mgrPing 1000 ctxPing).invoked = true) ∧
        ((executeCommand (executeCommand mgrPing 1000 ctxPing).state 2000
              ctxPing).ok = false ∧
          (executeCommand (executeCommand mgrPing 1000 ctxPing).state 2000
              ctxPing).invoked = false ∧
          (executeCommand (executeCommand mgrPing 1000 ctxPing).state 2000
              ctxPing).state = (executeCommand mgrPing 1000 ctxPing).state) ∧
        ((executeCommand (executeCommand mgrPing 1000 ctxPing).state 4000
              ctxPing).ok = true ∧
          (executeCommand (executeCommand mgrPing 1000 ctxPing).state 4000
              ctxPing).invoked = true) ∧
        (∀ (m2 : CommandManager) (nm chat : String) (t : Rat) (c0 : Command),
          mapGet m2.commands (jsToLower nm) = some c0 → c0.cooldown = 0 →
            isOnCooldown m2 nm chat t = false)) :=
  ⟨by decide, by rfl, by norm_num [cmdPing], by norm_num [cmdPing],
   by norm_num [cmdPing],
   cooldown_spec mgrPing cmdPing ctxPing 1000 2000 4000 (by decide)
     (by rfl) (by rfl) (by norm_num [cmdPing]) (by rfl) (by rfl)
     (by norm_num) (by norm_num [cmdPing]) (by norm_num [cmdPing])⟩

/-- One `checkRateLimit` call on a chat whose window has elapsed (or never
existed) in both layers: allowed, and both layers restart at one consumed
request expiring a window later. -/
theorem checkRateLimit_fresh (cfg : RLConfig) (now : Rat) (st : RLState)
    (chat : String) (hN : 1 ≤ cfg.maxRequests)
    (hfr : rlFresh chat now st) :
    checkRateLimit cfg now st chat =
      (⟨true, cfg.maxRequests - 1, cfg.windowMs⟩,
       ⟨mapSet st.mem chat ⟨1, now + cfg.windowMs⟩,
        mapSet st.db chat ⟨1, now + cfg.windowMs⟩⟩) := by
  obtain ⟨hm, hd⟩ := hfr
  unfold checkRateLimit memConsume
  cases hmem : mapGet st.mem chat with
  | none =>
      cases hdb : mapGet st.db chat with
      | none => simp [hmem, hdb, hN]
      | some rdb => simp [hmem, hdb, hN, hd rdb hdb]
  | some r =>
      have hexp : ¬ now < r.expiresAt := not_lt.mpr (hm r hmem)
      cases hdb : mapGet st.db chat with
      | none => simp [hmem, hdb, hN, hexp]
      | some rdb => simp [hmem, hdb, hN, hexp, hd rdb hdb]

/-- One `checkRateLimit` call inside an active window with spare capacity:
allowed, and both layers advance to `k + 1` consumed requests. -/
theorem checkRateLimit_active (cfg : RLConfig) (now : Rat) (st : RLState)
    (chat : String) (k : Nat) (r : Rat)
    (hk : k + 1 ≤ cfg.maxRequests) (hnow : now < r)
    (hInv : rlInv chat k r st) :
    checkRateLimit cfg now st chat =
      (⟨true, cfg.maxRequests - (k + 1), r - now⟩,
       ⟨mapSet st.mem chat ⟨k + 1, r⟩, mapSet st.db chat ⟨k + 1, r⟩⟩) := by
  obtain ⟨hm, hd⟩ := hInv
  have hdbfresh : ¬ (r < now) := not_lt.mpr (le_of_lt hnow)
  have hdbcap : ¬ (cfg.maxRequests ≤ k) := not_le.mpr (by omega)
  unfold checkRateLimit memConsume
  simp [hm, hd, hnow, hk, hdbfresh, hdbcap]

/-- One `checkRateLimit` call inside an active window whose capacity is
already consumed: the in-memory consume rejects, the call returns
`allowed = false` with the time to the window end, and the database copy is
untouched. -/
theorem checkRateLimit_exhausted (cfg : RLConfig) (now : Rat) (st : RLState)
    (chat : String) (r : Rat) (hnow : now < r)
    (hInv : rlInv chat cfg.maxRequests r st) :
    checkRateLimit cfg now st chat =
      (⟨false, 0, r - now⟩,
       ⟨mapSet st.mem chat ⟨cfg.maxRequests + 1, r⟩, st.db⟩) := by
  obtain ⟨hm, hd⟩ := hInv
  unfold checkRateLimit memConsume
  simp [hm, hnow]

/-- After `i` calls inside one window (each before the window end anchored at
the first call), both layers hold exactly `i` consumed requests. -/
theorem rlInv_after (cfg : RLConfig) (chat : String) (t : Nat → Rat)
    (st : RLState) (hN : 1 ≤ cfg.maxRequests)
    (hfr : rlFresh chat (t 0) st) :
    ∀ i, 1 ≤ i → i ≤ cfg.maxRequests →
      (∀ j, j < i → t j < t 0 + cfg.windowMs) →
      rlInv chat i (t 0 + cfg.windowMs)
        (rlStateAfter cfg chat t st i) := by
  intro i
  induction i with
  | zero => omega
  | succ i ih =>
      intro _ hle hw
      cases Nat.eq_zero_or_pos i with
      | inl h0 =>
          subst h0
          show rlInv chat 1 (t 0 + cfg.windowMs)
            (checkRateLimit cfg (t 0) st chat).2
          rw [checkRateLimit_fresh cfg (t 0) st chat hN hfr]
          exact ⟨mapGet_mapSet_self .., mapGet_mapSet_self ..⟩
      | inr hpos =>
          have hInv := ih hpos (by omega) (fun j hj => hw j (by omega))
          show rlInv chat (i + 1) (t 0 + cfg.windowMs)
            (checkRateLimit cfg (t i)
              (rlStateAfter cfg chat t st i) chat).2
          rw [checkRateLimit_active cfg (t i) _ chat i
            (t 0 + cfg.windowMs) hle (hw i (by omega)) hInv]
          exact ⟨mapGet_mapSet_self .., mapGet_mapSet_self ..⟩

/-- The first `maxRequests` calls inside one window are all allowed. -/
theorem rlAllowed_upto (cfg : RLConfig) (chat : String) (t : Nat → Rat)
    (st : RLState) (hN : 1 ≤ cfg.maxRequests)
    (hfr : rlFresh chat (t 0) st)
    (hwin : ∀ i, i < cfg.maxRequests → t i < t 0 + cfg.windowMs) :
    ∀ i, i < cfg.maxRequests → (rlResultAt cfg chat t st i).allowed = true := by
  intro i hi
  cases Nat.eq_zero_or_pos i with
  | inl h0 =>
      subst h0
      show (checkRateLimit cfg (t 0) st chat).1.allowed = true
      rw [checkRateLimit_fresh cfg (t 0) st chat hN hfr]
  | inr hpos =>
      have hInv := rlInv_after cfg chat t st hN hfr i hpos (by omega)
        (fun j hj => hwin j (by omega))
      show (checkRateLimit cfg (t i)
        (rlStateAfter cfg chat t st i) chat).1.allowed = true
      rw [checkRateLimit_active cfg (t i) _ chat i
        (t 0 + cfg.windowMs) (by omega) (hwin i hi) hInv]

/-- The `(maxRequests + 1)`-th call inside the window is refused with the
remaining window time, and once the window end has passed both layers count
as elapsed again. -/
theorem rlReject_at (cfg : RLConfig) (chat : String) (t : Nat → Rat)
    (st : RLState) (hN : 1 ≤ cfg.maxRequests)
    (hfr : rlFresh chat (t 0) st)
    (hwin : ∀ i, i ≤ cfg.maxRequests → t i < t 0 + cfg.windowMs) :
    (rlResultAt cfg chat t st cfg.maxRequests).allowed = false ∧
      (rlResultAt cfg chat t st cfg.maxRequests).msBeforeNext =
        t 0 + cfg.windowMs - t cfg.maxRequests ∧
      ∀ u, t 0 + cfg.windowMs < u →
        rlFresh chat u
          (rlStateAfter cfg chat t st (cfg.maxRequests + 1)) := by
  have hInv := rlInv_after cfg chat t st hN hfr cfg.maxRequests hN
    (le_refl _) (fun j hj => hwin j (by omega))
  have hrej := checkRateLimit_exhausted cfg (t cfg.maxRequests)
    (rlStateAfter cfg chat t st cfg.maxRequests) chat
    (t 0 + cfg.windowMs) (hwin cfg.maxRequests (le_refl _)) hInv
  refine ⟨?_, ?_, ?_⟩
  · show (checkRateLimit cfg (t cfg.maxRequests)
      (rlStateAfter cfg chat t st cfg.maxRequests) chat).1.allowed = false
    rw [hrej]
  · show (checkRateLimit cfg (t cfg.maxRequests)
      (rlStateAfter cfg chat t st cfg.maxRequests) chat).1.msBeforeNext = _
    rw [hrej]
  · intro u hu
    show rlFresh chat u (checkRateLimit cfg (t cfg.maxRequests)
      (rlStateAfter cfg chat t st cfg.maxRequests) chat).2
    rw [hrej]
    constructor
    · intro rec hrec
      rw [mapGet_mapSet_self] at hrec
      cases hrec
      exact le_of_lt hu
    · intro rec hrec
      have := hInv.2
      simp only [this] at hrec
      cases hrec
      exact hu

/-- Claim C6: starting from the empty limiter state, the first `maxRequests`
calls of one chat inside a window are allowed; the `(maxRequests + 1)`-th call
inside the same window is refused with a strictly positive time to reset; and
once the window has elapsed, a further `maxRequests` calls inside the new
window are all allowed again. -/
theorem rateLimiter_window_spec (cfg : RLConfig) (chat : String)
    (t s : Nat → Rat) (hN : 1 ≤ cfg.maxRequests)
    (hwin : ∀ i, i ≤ cfg.maxRequests → t i < t 0 + cfg.windowMs)
    (hs0 : t 0 + cfg.windowMs < s 0)
    (hswin : ∀ i, i < cfg.maxRequests → s i < s 0 + cfg.windowMs) :
    (∀ i, i < cfg.maxRequests →
        (rlResultAt cfg chat t RLState.empty i).allowed = true) ∧
      ((rlResultAt cfg chat t RLState.empty cfg.maxRequests).allowed
          = false ∧
        0 < (rlResultAt cfg chat t RLState.empty
          cfg.maxRequests).msBeforeNext) ∧
      (∀ i, i < cfg.maxRequests →
        (rlResultAt cfg chat s
          (rlStateAfter cfg chat t RLState.empty
            (cfg.maxRequests + 1)) i).allowed = true) := by
  have hfr0 : rlFresh chat (t 0) RLState.empty := by
    constructor <;> intro r hr <;> simp [RLState.empty, mapGet] at hr
  obtain ⟨hrej, hms, hafter⟩ :=
    rlReject_at cfg chat t RLState.empty hN hfr0 hwin
  refine ⟨rlAllowed_upto cfg chat t RLState.empty hN hfr0
      (fun i hi => hwin i (by omega)), ⟨hrej, ?_⟩, ?_⟩
  · rw [hms]
    have := hwin cfg.maxRequests (le_refl _)
    linarith
  · exact rlAllowed_upto cfg chat s _ hN (hafter (s 0) hs0) hswin

/-- Witness for C6 with window 1000 ms, capacity 2, calls at 0, 100, 200 ms
and a second window at 2000 and 2100 ms. -/
theorem rateLimiter_window_spec_witness :
    (1 ≤ (RLConfig.mk 1000 2).maxRequests) ∧
      (∀ i, i ≤ (RLConfig.mk 1000 2).maxRequests →
        (fun j : Nat => (100 : Rat) * j) i <
          (fun j : Nat => (100 : Rat) * j) 0 +
            (RLConfig.mk 1000 2).windowMs) ∧
      ((∀ i, i < (RLConfig.mk 1000 2).maxRequests →
          (rlResultAt (RLConfig.mk 1000 2) "c"
            (fun j : Nat => (100 : Rat) * j) RLState.empty i).allowed
            = true) ∧
        ((rlResultAt (RLConfig.mk 1000 2) "c"
            (fun j : Nat => (100 : Rat) * j) RLState.empty
            (RLConfig.mk 1000 2).maxRequests).allowed = false ∧
          0 < (rlResultAt (RLConfig.mk 1000 2) "c"
            (fun j : Nat => (100 : Rat) * j) RLState.empty
            (RLConfig.mk 1000 2).maxRequests).msBeforeNext) ∧
        (∀ i, i < (RLConfig.mk 1000 2).maxRequests →
          (rlResultAt (RLConfig.mk 1000 2) "c"
            (fun j : Nat => (2000 : Rat) + 100 * j)
            (rlStateAfter (RLConfig.mk 1000 2) "c"
              (fun j : Nat => (100 : Rat) * j) RLState.empty
              ((RLConfig.mk 1000 2).maxRequests + 1)) i).allowed
            = true)) :=
  ⟨by norm_num,
   by intro i hi; interval_cases i <;> norm_num,
   rateLimiter_window_spec (RLConfig.mk 1000 2) "c"
     (fun j : Nat => (100 : Rat) * j)
     (fun j : Nat => (2000 : Rat) + 100 * j)
     (by norm_num)
     (by intro i hi; interval_cases i <;> norm_num)
     (by norm_num)
     (by intro i hi; interval_cases i <;> norm_num)⟩

/-- Witness for the amended C4 at the concrete command `cmdPing`. -/
theorem registerCommand_spec_witness :
    ¬ (cmdPing.name = "" ∨ cmdPing.execute = none) ∧
      (¬ (cmdPing.name = "" ∨ cmdPing.execute = none) →
        ∃ m2, registerCommand CommandManager.empty cmdPing = Except.ok m2 ∧
          mapGet m2.commands (jsToLower cmdPing.name) = some cmdPing ∧
          ∀ a ∈ cmdPing.aliases,
            mapGet m2.commandAliases (jsToLower a)
              = some (jsToLower cmdPing.name)) :=
  ⟨by decide, (registerCommand_spec CommandManager.empty cmdPing).2.2⟩

end Chatbot
